import Mathlib

/-!
Verification of the knowledge-graph Flask backend
(`src/assignment1/backend_code-app.py`).

The application keeps a single `networkx.DiGraph` whose nodes are entity names
and whose edges carry a `relationship` string attribute, and exposes HTTP
endpoints over it.  This file gives a shallow embedding of that state and of
the endpoint handlers: the graph is a pair of insertion-ordered lists (nodes,
and (source, target, label) edge triples with at most one edge per ordered
pair, exactly as a `DiGraph` adjacency dict stores them), and each handler is
a pure function from the graph and the request fields to the new graph and the
JSON envelope it returns.
-/

/-- The `networkx.DiGraph` used as the knowledge graph: `nodes` in insertion
order, and `edges` as (source, target, relationship-label) triples in
insertion order, at most one edge per ordered (source, target) pair. -/
structure KGraph where
  nodes : List String
  edges : List (String × String × String)
deriving Repr, DecidableEq

/-- A fresh `nx.DiGraph()`. -/
def emptyKG : KGraph := ⟨[], []⟩

/-- Python's `str.strip()` on a list of characters: drop leading and trailing
whitespace. -/
def stripChars (l : List Char) : List Char :=
  ((l.dropWhile Char.isWhitespace).reverse.dropWhile Char.isWhitespace).reverse

/-- Python's `str.strip()`. -/
def strip (s : String) : String := ⟨stripChars s.data⟩

/-- `G.add_edge(s, t, relationship := l)`: missing endpoints are created as
nodes (source first, then target, matching `DiGraph` insertion order); an
existing (s, t) edge has its label overwritten in place, otherwise the new
edge is appended. -/
def addEdge (g : KGraph) (s t l : String) : KGraph :=
  let ns := if g.nodes.contains s then g.nodes else g.nodes ++ [s]
  let ns2 := if ns.contains t then ns else ns ++ [t]
  let es := if g.edges.any (fun e => e.1 == s && e.2.1 == t) then
      g.edges.map (fun e => if e.1 == s && e.2.1 == t then (s, t, l) else e)
    else g.edges ++ [(s, t, l)]
  ⟨ns2, es⟩

/-- The label stored on the (s, t) edge, i.e. `G[s][t]['relationship']`. -/
def edgeLabel (g : KGraph) (s t : String) : Option String :=
  (g.edges.find? (fun e => e.1 == s && e.2.1 == t)).map (fun e => e.2.2)

/-- Whether the graph has an (s, t) edge. -/
def hasEdge (g : KGraph) (s t : String) : Bool :=
  g.edges.any (fun e => e.1 == s && e.2.1 == t)

/-- The `sample_relationships` list of `initialize_sample_data`, as
(Entity1, Relationship, Entity2) triples. -/
def sample_relationships : List (String × String × String) :=
  [("John Doe", "enrolled_in", "Computer Science"),
   ("John Doe", "advised_by", "Dr. Smith"),
   ("Jane Smith", "enrolled_in", "Computer Science"),
   ("Jane Smith", "advised_by", "Dr. Smith"),
   ("Dr. Smith", "teaches", "Machine Learning"),
   ("Dr. Smith", "belongs_to", "Computer Science"),
   ("Dr. Johnson", "teaches", "Data Structures"),
   ("Dr. Johnson", "belongs_to", "Computer Science"),
   ("Machine Learning", "offered_by", "Computer Science"),
   ("Data Structures", "offered_by", "Computer Science"),
   ("Computer Science", "part_of", "Engineering Department"),
   ("Research Group A", "led_by", "Dr. Smith"),
   ("John Doe", "member_of", "Research Group A")]

/-- `initialize_sample_data()`: adds every sample relationship to the graph
with `add_edge(entity1, entity2, relationship := relationship)`. -/
def initialize_sample_data (g : KGraph) : KGraph :=
  sample_relationships.foldl (fun g r => addEdge g r.1 r.2.2 r.2.1) g

/-- The module-load state of `knowledge_graph`: the sample data added to a
fresh `DiGraph`. -/
def initialGraph : KGraph := initialize_sample_data emptyKG

/-- A node of the visualization payload: `{id, label, title}`. -/
structure VisNode where
  id : String
  label : String
  title : String
deriving Repr, DecidableEq

/-- An edge of the visualization payload: `{from, to, label, arrows, title}`
(the JSON keys `from`/`to` are the `source`/`target` fields here, `from`
being a Lean keyword). -/
structure VisEdge where
  source : String
  target : String
  label : String
  arrows : String
  title : String
deriving Repr, DecidableEq

/-- The dict built by `get_graph_data_dict()` (success case): node and edge
lists for vis.js plus the node/edge counts under `stats`. -/
structure GraphData where
  nodes : List VisNode
  edges : List VisEdge
  total_nodes : Nat
  total_edges : Nat
deriving Repr, DecidableEq

/-- `get_graph_data_dict()`: formats every node as `{id, label, title}` and
every edge as `{from, to, label, arrows := "to", title}`.  The `try` body is
total, so the except branch is dead code. -/
def get_graph_data_dict (g : KGraph) : GraphData :=
  { nodes := g.nodes.map (fun n => ⟨n, n, "Entity: " ++ n⟩),
    edges := g.edges.map (fun e =>
      ⟨e.1, e.2.1, e.2.2, "to", e.1 ++ " --[" ++ e.2.2 ++ "]--> " ++ e.2.1⟩),
    total_nodes := g.nodes.length,
    total_edges := g.edges.length }

/-- The outcome of the `add_relationship` handler: the (possibly updated)
module graph together with the JSON envelope and HTTP status. -/
structure AddResult where
  graph : KGraph
  success : Bool
  status : Nat
  message : String
  graph_data : Option GraphData
deriving Repr, DecidableEq

/-- `POST /api/add_relationship`: strips the three fields, rejects with 400 if
any is empty, otherwise adds the edge and answers 200 with the updated
visualization snapshot. -/
def add_relationship (g : KGraph) (entity1 relationship entity2 : String) : AddResult :=
  let e1 := strip entity1
  let rel := strip relationship
  let e2 := strip entity2
  if e1 == "" || rel == "" || e2 == "" then
    ⟨g, false, 400, "All fields (Entity 1, Relationship, Entity 2) are required", none⟩
  else
    let g2 := addEdge g e1 e2 rel
    ⟨g2, true, 200,
      "Relationship added: " ++ e1 ++ " --[" ++ rel ++ "]--> " ++ e2,
      some (get_graph_data_dict g2)⟩

/-- The accumulator of the `upload_csv` row loop: the graph, `added_count`,
and the per-row `errors` list. -/
structure UploadOutcome where
  graph : KGraph
  added_count : Nat
  errors : List String
deriving Repr, DecidableEq

/-- One iteration of the `upload_csv` row loop, acting on the three cell
values already passed through Python's `str()` (see `pyStr` for what pandas
hands that call): strip each, and only if all are non-empty, add the edge
and count it.  The body raises no exception on these values, so the except
branch never appends to `errors`. -/
def processRow (acc : UploadOutcome) (row : String × String × String) : UploadOutcome :=
  let e1 := strip row.1
  let rel := strip row.2.1
  let e2 := strip row.2.2
  if !(e1 == "") && !(rel == "") && !(e2 == "") then
    { acc with graph := addEdge acc.graph e1 e2 rel, added_count := acc.added_count + 1 }
  else acc

/-- The row loop of `POST /api/upload_csv` over the parsed
(Entity1, Relationship, Entity2) rows of the uploaded file. -/
def upload_csv_rows (g : KGraph) (rows : List (String × String × String)) : UploadOutcome :=
  rows.foldl processRow ⟨g, 0, []⟩

/-- A cell of a CSV row as `pd.read_csv` hands it to the row loop: the
cell's string, or the NaN float that pandas substitutes for an empty cell
(default `na_values`; a whitespace-only cell stays a string). -/
inductive CsvField where
  | str (s : String)
  | nan
deriving Repr, DecidableEq

/-- Python's `str()` applied to a parsed cell (`str(row['Entity1'])` etc.):
the string itself, or the non-empty string "nan" for the NaN of an empty
cell. -/
def pyStr : CsvField → String
  | .str s => s
  | .nan => "nan"

/-- The row loop of `POST /api/upload_csv` on the rows as pandas parses
them: each cell goes through `str()`, then the string loop body runs. -/
def upload_csv_parsed (g : KGraph)
    (rows : List (CsvField × CsvField × CsvField)) : UploadOutcome :=
  upload_csv_rows g (rows.map (fun r => (pyStr r.1, pyStr r.2.1, pyStr r.2.2)))

/-- The `neighbors` query result: `incoming` pairs (predecessor entity, label
of its edge into the queried entity) and `outgoing` pairs (successor entity,
label of the edge to it), each entry rendered as
`{entity, relationship}` in the JSON. -/
structure Neighbors where
  incoming : List (String × String)
  outgoing : List (String × String)
deriving Repr, DecidableEq

/-- The `neighbors` branch of `query_graph`: predecessors with the label of
their edge into `entity`, successors with the label of the edge from
`entity`. -/
def neighborsOf (g : KGraph) (entity : String) : Neighbors :=
  { incoming := (g.edges.filter (fun e => e.2.1 == entity)).map (fun e => (e.1, e.2.2)),
    outgoing := (g.edges.filter (fun e => e.1 == entity)).map (fun e => (e.2.1, e.2.2)) }

/-- The successors of `n`: targets of edges out of `n`. -/
def successorsOf (g : KGraph) (n : String) : List String :=
  (g.edges.filter (fun e => e.1 == n)).map (fun e => e.2.1)

/-- Worklist BFS behind `nx.shortest_path(G, source, target)` on the
unweighted digraph: the queue holds reversed paths (current node first,
source last); a node is marked visited when enqueued.  Fuel bounds the number
of dequeues; `none` means no path was found. -/
def bfsAux (g : KGraph) (target : String) :
    Nat → List (List String) → List String → Option (List String)
  | 0, _, _ => none
  | _ + 1, [], _ => none
  | fuel + 1, p :: queue, visited =>
    match p with
    | [] => none
    | cur :: rest =>
      if cur == target then some ((cur :: rest).reverse)
      else
        let next := (successorsOf g cur).filter (fun s => !visited.contains s)
        bfsAux g target fuel (queue ++ next.map (fun s => s :: cur :: rest)) (visited ++ next)

/-- `nx.shortest_path(G, s, t)`: a shortest directed path from `s` to `t` as
a node list, or `none` when `nx.NetworkXNoPath` would be raised. -/
def shortest_path (g : KGraph) (s t : String) : Option (List String) :=
  bfsAux g t (g.nodes.length + g.edges.length + 1) [[s]] [s]

/-- The `shortest_path` branch of `query_graph`: for every node other than
`entity`, in node order, the shortest path from `entity` to it keyed by the
target; targets with no path are skipped (`except nx.NetworkXNoPath: pass`). -/
def shortestPathsFrom (g : KGraph) (entity : String) : List (String × List String) :=
  (g.nodes.filter (fun t => !(t == entity))).filterMap
    (fun t => (shortest_path g entity t).map (fun p => (t, p)))

/-- The `DiGraph` degree of `n`: out-degree plus in-degree (a self-loop
counts twice). -/
def degreeOf (g : KGraph) (n : String) : Nat :=
  (g.edges.filter (fun e => e.1 == n)).length + (g.edges.filter (fun e => e.2.1 == n)).length

/-- `nx.degree_centrality(G)[n]`: `degree(n) / (len(G) - 1)` (networkx
returns 1 for every node of a graph with at most one node). -/
def degree_centrality (g : KGraph) (n : String) : Rat :=
  if g.nodes.length ≤ 1 then 1
  else (degreeOf g n : Rat) / ((g.nodes.length : Rat) - 1)

/-- The number of directed walks of length `k` from `s` to `t`; at the
minimal such `k` this counts the shortest `s`–`t` paths. -/
def countWalks (g : KGraph) : Nat → String → String → Nat
  | 0, s, t => if s == t then 1 else 0
  | k + 1, s, t => ((successorsOf g s).map (fun u => countWalks g k u t)).sum

/-- The directed distance from `s` to `t`: the least walk length with a
positive walk count, searched up to the node count. -/
def distOpt (g : KGraph) (s t : String) : Option Nat :=
  (List.range (g.nodes.length + 1)).find? (fun k => countWalks g k s t != 0)

/-- The number of shortest directed paths from `s` to `t` (0 when
unreachable). -/
def sigmaPaths (g : KGraph) (s t : String) : Nat :=
  match distOpt g s t with
  | some k => countWalks g k s t
  | none => 0

/-- The fraction of shortest `s`–`t` paths passing through `v`. -/
def pairDependency (g : KGraph) (s t v : String) : Rat :=
  match distOpt g s v, distOpt g v t, distOpt g s t with
  | some a, some b, some c =>
    if a + b = c then ((sigmaPaths g s v * sigmaPaths g v t : Nat) : Rat) / (sigmaPaths g s t : Rat)
    else 0
  | _, _, _ => 0

/-- `nx.betweenness_centrality(G)[v]` (normalized, endpoints excluded): the
sum over ordered pairs `s ≠ t`, both distinct from `v`, of the fraction of
shortest `s`–`t` paths through `v`, scaled by `1 / ((n-1) * (n-2))` for a
digraph with more than two nodes. -/
def betweenness_centrality (g : KGraph) (v : String) : Rat :=
  let n := g.nodes.length
  let raw := (g.nodes.map (fun s =>
    (g.nodes.map (fun t =>
      if s ≠ t ∧ s ≠ v ∧ t ≠ v then pairDependency g s t v else 0)).sum)).sum
  if 2 < n then raw / (((n : Rat) - 1) * ((n : Rat) - 2)) else raw

/-- The `results` dict assembled by `query_graph`: a field is `some` exactly
when the corresponding key was set; all `none` is the empty dict. -/
structure QueryResults where
  neighbors : Option Neighbors
  shortest_paths : Option (List (String × List String))
  centrality : Option (Rat × Rat)
deriving DecidableEq

/-- The JSON envelope of `POST /api/query`: 400 with a message, 404 with a
message, or 200 with the echoed entity, query type and results. -/
inductive QueryResponse where
  | badRequest (message : String)
  | notFound (message : String)
  | ok (entity : String) (query_type : String) (results : QueryResults)
deriving DecidableEq

/-- Whether a query response is the 404 not-found envelope. -/
def QueryResponse.isNotFound : QueryResponse → Bool
  | .notFound _ => true
  | _ => false

/-- `POST /api/query`: strip the entity (400 if empty, 404 if absent from the
graph), then fill `results` from the branches matched by `query_type`; the
`shortest_path` branch additionally requires more than one node.  A
`query_type` matching no branch leaves `results` empty and still answers
200. -/
def query_graph (g : KGraph) (entityRaw query_type : String) : QueryResponse :=
  let entity := strip entityRaw
  if entity == "" then .badRequest "Entity name is required for query"
  else if !(g.nodes.contains entity) then
    .notFound ("Entity \"" ++ entity ++ "\" not found in the graph")
  else
    .ok entity query_type
      { neighbors :=
          if query_type == "neighbors" || query_type == "all" then some (neighborsOf g entity)
          else none,
        shortest_paths :=
          if query_type == "shortest_path" || query_type == "all" then
            (if 1 < g.nodes.length then some (shortestPathsFrom g entity) else none)
          else none,
        centrality :=
          if query_type == "centrality" || query_type == "all" then
            some (degree_centrality g entity, betweenness_centrality g entity)
          else none }

/-- The outcome of the `clear_graph` handler: the reset module graph together
with the envelope actually sent. -/
structure ClearResult where
  graph : KGraph
  success : Bool
  status : Nat
  message : String
deriving DecidableEq

/-- `POST /api/clear_graph`: the `try` block replaces the module graph with a
fresh seeded `DiGraph`, then builds the success payload with
`graph_data := get_graph_data()` — the Flask *route handler*, which returns a
`Response` object, not the dict from `get_graph_data_dict()`.  `jsonify` of a
dict containing a `Response` raises `TypeError` ("Object of type Response is
not JSON serializable"), so control reaches the except branch and the 500
error envelope is returned; the node/edge counts stored before clearing only
occur in the success message that is never delivered.  The reset of the graph
has already taken effect when the exception is raised. -/
def clear_graph (_g : KGraph) : ClearResult :=
  ⟨initialize_sample_data emptyKG, false, 500,
    "Error clearing graph: Object of type Response is not JSON serializable"⟩

/-- A graph mutation reachable through the HTTP surface: one
`add_relationship` request or one bulk CSV import. -/
inductive Mutation where
  | add (entity1 relationship entity2 : String)
  | bulk (rows : List (String × String × String))

/-- The effect of a mutation on the module graph. -/
def applyMutation (g : KGraph) : Mutation → KGraph
  | .add e1 rel e2 => (add_relationship g e1 rel e2).graph
  | .bulk rows => (upload_csv_rows g rows).graph

/-- `p` is a directed path (edge-consecutive node list) in `g`. -/
def PathChain (g : KGraph) : List String → Prop
  | a :: b :: rest => hasEdge g a b = true ∧ PathChain g (b :: rest)
  | _ => True

/-- `p` read back-to-front is a directed path in `g` (the orientation of the
BFS queue entries). -/
def RevChain (g : KGraph) : List String → Prop
  | a :: b :: rest => hasEdge g b a = true ∧ RevChain g (b :: rest)
  | _ => True

/-- There is a directed path from `s` to `t` in `g`. -/
def ReachableIn (g : KGraph) (s t : String) : Prop :=
  ∃ p, PathChain g p ∧ p.head? = some s ∧ p.getLast? = some t

/-- The entities other than `n`, in node order. -/
def othersOf (g : KGraph) (n : String) : List String :=
  g.nodes.filter (fun m => !(m == n))

/-- The entities other than `n` that are directly connected to `n` in either
direction. -/
def connectedOthers (g : KGraph) (n : String) : List String :=
  (othersOf g n).filter (fun m => hasEdge g n m || hasEdge g m n)

/-- The degree value as the spec's words describe it: the number of distinct
other entities directly connected to `n`, ignoring edge direction, divided
by the number of other entities.  Stated for comparison with the
`nx.degree_centrality` value the code actually returns. -/
def distinctNeighborFraction (g : KGraph) (n : String) : Rat :=
  if (othersOf g n).length = 0 then 0
  else ((connectedOthers g n).length : Rat) / ((othersOf g n).length : Rat)

/-- A graph state reachable through the HTTP surface that connects two
entities in both directions: the seeded graph after
`add_relationship("Computer Science", "mentors", "John Doe")`. -/
def reciprocalGraph : KGraph :=
  (add_relationship initialGraph "Computer Science" "mentors" "John Doe").graph

/-! ### Helper lemmas about the store operations -/

lemma contains_true_iff (l : List String) (a : String) : l.contains a = true ↔ a ∈ l := by
  simp [List.contains]

lemma contains_false_of_not_mem {l : List String} {a : String} (h : a ∉ l) :
    l.contains a = false := by
  cases hc : l.contains a
  · rfl
  · exact absurd ((contains_true_iff _ _).mp hc) h

lemma mem_snoc_ite (a t : String) (ns : List String) (h : a ∈ ns) :
    a ∈ (if ns.contains t = true then ns else ns ++ [t]) := by
  split
  · exact h
  · exact List.mem_append.mpr (Or.inl h)

lemma self_mem_snoc_ite (t : String) (ns : List String) :
    t ∈ (if ns.contains t = true then ns else ns ++ [t]) := by
  by_cases h : ns.contains t = true
  · rw [if_pos h]
    exact (contains_true_iff _ _).mp h
  · rw [if_neg h]
    simp

lemma nodes_addEdge (g : KGraph) (s t l : String) :
    s ∈ (addEdge g s t l).nodes ∧ t ∈ (addEdge g s t l).nodes := by
  unfold addEdge
  dsimp only
  constructor
  · apply mem_snoc_ite
    by_cases h : g.nodes.contains s = true
    · rw [if_pos h]
      exact (contains_true_iff _ _).mp h
    · rw [if_neg h]
      simp
  · apply self_mem_snoc_ite

lemma mem_edges_addEdge (g : KGraph) (s t l : String) :
    (s, t, l) ∈ (addEdge g s t l).edges := by
  unfold addEdge
  dsimp only
  split
  · next h =>
    obtain ⟨e, he, hpe⟩ := List.any_eq_true.mp h
    exact List.mem_map.mpr ⟨e, he, by rw [if_pos hpe]⟩
  · simp

lemma find?_map_overwrite (s t l : String) :
    ∀ es : List (String × String × String),
      es.any (fun e => e.1 == s && e.2.1 == t) = true →
      (es.map (fun e => if e.1 == s && e.2.1 == t then (s, t, l) else e)).find?
        (fun e => e.1 == s && e.2.1 == t) = some (s, t, l) := by
  intro es
  induction es with
  | nil => intro h; simp at h
  | cons e es ih =>
    intro h
    by_cases hp : (e.1 == s && e.2.1 == t) = true
    · simp only [List.map_cons, if_pos hp]
      rw [List.find?_cons_of_pos _ (by simp)]
    · simp only [List.map_cons, if_neg hp]
      rw [List.find?_cons_of_neg _ (by simpa using hp)]
      apply ih
      simpa [hp] using h

/-- C2: an `add_relationship` request in which some field is empty or
whitespace-only after trimming is rejected with the 400 validation envelope
(`success = false`) and the graph is returned unchanged. -/
theorem add_relationship_rejects_empty (g : KGraph) (entity1 relationship entity2 : String)
    (h : strip entity1 = "" ∨ strip relationship = "" ∨ strip entity2 = "") :
    add_relationship g entity1 relationship entity2 =
      ⟨g, false, 400, "All fields (Entity 1, Relationship, Entity 2) are required", none⟩ := by
  unfold add_relationship
  dsimp only
  rcases h with h | h | h <;> rw [h] <;> simp

/-- Witness for `add_relationship_rejects_empty` at a whitespace-only first
field. -/
theorem add_relationship_rejects_empty_witness :
    (strip "  " = "" ∨ strip "knows" = "" ∨ strip "B" = "") ∧
    add_relationship initialGraph "  " "knows" "B" =
      ⟨initialGraph, false, 400,
        "All fields (Entity 1, Relationship, Entity 2) are required", none⟩ :=
  ⟨Or.inl (by decide),
   add_relationship_rejects_empty initialGraph "  " "knows" "B" (Or.inl (by decide))⟩

/-- C5: after any sequence of HTTP-reachable mutations of the seeded graph,
the reset performed by `clear_graph` leaves exactly the seeded sample graph,
whose node and edge counts are the fixed 9 and 13. -/
theorem clear_graph_restores_seed (ms : List Mutation) :
    (clear_graph (ms.foldl applyMutation initialGraph)).graph = initialGraph ∧
    initialGraph.nodes.length = 9 ∧ initialGraph.edges.length = 13 :=
  ⟨rfl, by decide, by decide⟩

/-- C6 (code bug witness): every `clear_graph` call re-seeds the graph but
returns the 500 error envelope with `success = false`, because the handler
nests the `get_graph_data` route's `Response` inside `jsonify`, which raises;
the documented `{success := true, message, graph_data}` envelope is never
produced. -/
theorem clear_graph_returns_error_envelope (g : KGraph) :
    (clear_graph g).success = false ∧ (clear_graph g).status = 500 ∧
    (clear_graph g).graph = initialGraph :=
  ⟨rfl, rfl, rfl⟩

/-- C7: re-adding a relationship for an ordered pair that already has one
overwrites the retrievable label and leaves the total edge count unchanged. -/
theorem addEdge_overwrites_existing_pair (g : KGraph) (s t l1 l2 : String)
    (h : edgeLabel g s t = some l1) :
    edgeLabel (addEdge g s t l2) s t = some l2 ∧
    (addEdge g s t l2).edges.length = g.edges.length := by
  obtain ⟨e, hf, _⟩ := Option.map_eq_some'.mp h
  have hp := List.find?_some hf
  have hm : e ∈ g.edges := List.mem_of_find?_eq_some hf
  have hany : g.edges.any (fun e => e.1 == s && e.2.1 == t) = true :=
    List.any_eq_true.mpr ⟨e, hm, hp⟩
  constructor
  · unfold edgeLabel addEdge
    dsimp only
    rw [if_pos hany, find?_map_overwrite s t l2 g.edges hany]
    rfl
  · unfold addEdge
    dsimp only
    rw [if_pos hany, List.length_map]

/-- Witness for `addEdge_overwrites_existing_pair` on a seeded edge. -/
theorem addEdge_overwrites_existing_pair_witness :
    edgeLabel initialGraph "John Doe" "Computer Science" = some "enrolled_in" ∧
    (edgeLabel (addEdge initialGraph "John Doe" "Computer Science" "likes")
        "John Doe" "Computer Science" = some "likes" ∧
      (addEdge initialGraph "John Doe" "Computer Science" "likes").edges.length =
        initialGraph.edges.length) :=
  ⟨by decide,
   addEdge_overwrites_existing_pair initialGraph "John Doe" "Computer Science"
     "enrolled_in" "likes" (by decide)⟩

/-! ### Helper lemmas for the CSV row loop -/

lemma processRow_skip (acc : UploadOutcome) (r : String × String × String)
    (h : strip r.1 = "" ∨ strip r.2.1 = "" ∨ strip r.2.2 = "") :
    processRow acc r = acc := by
  unfold processRow
  dsimp only
  rcases h with h | h | h <;> rw [h] <;> simp

lemma errors_foldl_processRow (rows : List (String × String × String)) :
    ∀ acc, (rows.foldl processRow acc).errors = acc.errors := by
  induction rows with
  | nil => intro acc; rfl
  | cons r rows ih =>
    intro acc
    rw [List.foldl_cons, ih]
    unfold processRow
    dsimp only
    split <;> rfl

/-- A row whose post-`str()` cell values strip to empty (in a real upload:
whitespace-only cells, which pandas keeps as strings) is silently skipped:
deleting it from the row list changes neither the resulting graph, nor
`added_count`, nor `errors`, and the `errors` list stays empty. -/
lemma upload_csv_skips_empty_rows (g : KGraph)
    (pre post : List (String × String × String)) (r : String × String × String)
    (h : strip r.1 = "" ∨ strip r.2.1 = "" ∨ strip r.2.2 = "") :
    upload_csv_rows g (pre ++ r :: post) = upload_csv_rows g (pre ++ post) ∧
    (upload_csv_rows g (pre ++ r :: post)).errors = [] := by
  constructor
  · unfold upload_csv_rows
    rw [List.foldl_append, List.foldl_append, List.foldl_cons, processRow_skip _ r h]
  · unfold upload_csv_rows
    rw [errors_foldl_processRow]

/-- C8 (code bug): on the claim's example CSV, pandas parses the empty
first cell of the second row as NaN, `str()` turns it into the non-empty
string "nan", and the guard `if entity1 and relationship and entity2`
passes: the row is applied as an edge from the spurious entity "nan" and
counted, so `added_count = 2`, not 1, with no `errors` entry either way.
The last conjunct shows what is actually skipped: a whitespace-only cell,
which pandas keeps as a string that strips to empty. -/
theorem upload_csv_nan_row_applied :
    (upload_csv_parsed initialGraph
        [(CsvField.str "X", CsvField.str "y", CsvField.str "Z"),
         (CsvField.nan, CsvField.str "bad", CsvField.str "Q")]).added_count = 2 ∧
    edgeLabel (upload_csv_parsed initialGraph
        [(CsvField.str "X", CsvField.str "y", CsvField.str "Z"),
         (CsvField.nan, CsvField.str "bad", CsvField.str "Q")]).graph "nan" "Q" =
      some "bad" ∧
    "nan" ∈ (upload_csv_parsed initialGraph
        [(CsvField.str "X", CsvField.str "y", CsvField.str "Z"),
         (CsvField.nan, CsvField.str "bad", CsvField.str "Q")]).graph.nodes ∧
    (upload_csv_parsed initialGraph
        [(CsvField.str "X", CsvField.str "y", CsvField.str "Z"),
         (CsvField.nan, CsvField.str "bad", CsvField.str "Q")]).errors = [] ∧
    upload_csv_parsed initialGraph
        [(CsvField.str "X", CsvField.str "y", CsvField.str "Z"),
         (CsvField.str " ", CsvField.str "bad", CsvField.str "Q")] =
      upload_csv_parsed initialGraph [(CsvField.str "X", CsvField.str "y", CsvField.str "Z")] :=
  ⟨by decide, by decide, by decide, by decide, by decide⟩

/-! ### The query endpoint -/

/-- C3 counterexample: the empty-after-trimming entity name `" "` is not
present in the graph, yet `POST /api/query` answers with the 400
bad-request envelope, not the 404 not-found one the claim requires. -/
theorem query_absent_entity_counterexample :
    " " ∉ initialGraph.nodes ∧ strip " " ∉ initialGraph.nodes ∧
    query_graph initialGraph " " "neighbors" =
      QueryResponse.badRequest "Entity name is required for query" ∧
    (query_graph initialGraph " " "neighbors").isNotFound = false := by
  refine ⟨by decide, by decide, by decide, by decide⟩

/-- C3 (amended): a query for an entity that is non-empty after trimming and
absent from the graph answers the 404 not-found envelope, whatever the query
type. -/
theorem query_absent_entity_not_found (g : KGraph) (entity qt : String)
    (h1 : strip entity ≠ "") (h2 : strip entity ∉ g.nodes) :
    query_graph g entity qt =
      QueryResponse.notFound ("Entity \"" ++ strip entity ++ "\" not found in the graph") := by
  unfold query_graph
  dsimp only
  rw [if_neg (by simp [h1]), if_pos (by rw [contains_false_of_not_mem h2]; rfl)]

/-- Witness for `query_absent_entity_not_found` at an unknown entity. -/
theorem query_absent_entity_not_found_witness :
    strip "Nobody" ≠ "" ∧ strip "Nobody" ∉ initialGraph.nodes ∧
    query_graph initialGraph "Nobody" "all" =
      QueryResponse.notFound ("Entity \"" ++ strip "Nobody" ++ "\" not found in the graph") :=
  ⟨by decide, by decide,
   query_absent_entity_not_found initialGraph "Nobody" "all" (by decide) (by decide)⟩

/-- C10: a query for a known entity with a `query_type` matching none of the
four dispatch branches (including the absent query type, which defaults to
`""`) still succeeds, answering 200 with the entity, the echoed query type
and an empty results object. -/
theorem query_unknown_type_empty_success (g : KGraph) (entity qt : String)
    (h1 : strip entity ≠ "") (h2 : strip entity ∈ g.nodes)
    (h3 : qt ≠ "neighbors") (h4 : qt ≠ "shortest_path") (h5 : qt ≠ "centrality")
    (h6 : qt ≠ "all") :
    query_graph g entity qt = QueryResponse.ok (strip entity) qt ⟨none, none, none⟩ := by
  unfold query_graph
  dsimp only
  rw [if_neg (by simp [h1]),
    if_neg (by rw [(contains_true_iff g.nodes (strip entity)).mpr h2]; simp)]
  simp [h3, h4, h5, h6]

/-- Witness for `query_unknown_type_empty_success` with the unknown query
type `"bogus"`. -/
theorem query_unknown_type_empty_success_witness :
    strip "John Doe" ≠ "" ∧ strip "John Doe" ∈ initialGraph.nodes ∧
    ("bogus" : String) ≠ "neighbors" ∧ ("bogus" : String) ≠ "shortest_path" ∧
    ("bogus" : String) ≠ "centrality" ∧ ("bogus" : String) ≠ "all" ∧
    query_graph initialGraph "John Doe" "bogus" =
      QueryResponse.ok (strip "John Doe") "bogus" ⟨none, none, none⟩ :=
  ⟨by decide, by decide, by decide, by decide, by decide, by decide,
   query_unknown_type_empty_success initialGraph "John Doe" "bogus"
     (by decide) (by decide) (by decide) (by decide) (by decide) (by decide)⟩

/-- A neighbors query for a known entity answers 200 with exactly the
incoming/outgoing relationship lists. -/
lemma query_neighbors_of_mem (g : KGraph) (entity : String)
    (h1 : strip entity ≠ "") (h2 : strip entity ∈ g.nodes) :
    query_graph g entity "neighbors" =
      QueryResponse.ok (strip entity) "neighbors"
        ⟨some (neighborsOf g (strip entity)), none, none⟩ := by
  unfold query_graph
  dsimp only
  rw [if_neg (by simp [h1]),
    if_neg (by rw [(contains_true_iff g.nodes (strip entity)).mpr h2]; simp)]
  simp

/-- C1: an `add_relationship` request whose three fields are non-empty after
trimming succeeds, the edge appears in the returned `graph_data` snapshot,
and subsequent neighbors queries show it outgoing from entity1 and incoming
at entity2. -/
theorem add_relationship_success_visible (g : KGraph) (entity1 relationship entity2 : String)
    (h1 : strip entity1 ≠ "") (h2 : strip relationship ≠ "") (h3 : strip entity2 ≠ "") :
    (add_relationship g entity1 relationship entity2).success = true ∧
    (add_relationship g entity1 relationship entity2).graph_data =
      some (get_graph_data_dict (add_relationship g entity1 relationship entity2).graph) ∧
    (⟨strip entity1, strip entity2, strip relationship, "to",
        strip entity1 ++ " --[" ++ strip relationship ++ "]--> " ++ strip entity2⟩ : VisEdge) ∈
      (get_graph_data_dict (add_relationship g entity1 relationship entity2).graph).edges ∧
    query_graph (add_relationship g entity1 relationship entity2).graph entity1 "neighbors" =
      QueryResponse.ok (strip entity1) "neighbors"
        ⟨some (neighborsOf (add_relationship g entity1 relationship entity2).graph
          (strip entity1)), none, none⟩ ∧
    (strip entity2, strip relationship) ∈
      (neighborsOf (add_relationship g entity1 relationship entity2).graph
        (strip entity1)).outgoing ∧
    query_graph (add_relationship g entity1 relationship entity2).graph entity2 "neighbors" =
      QueryResponse.ok (strip entity2) "neighbors"
        ⟨some (neighborsOf (add_relationship g entity1 relationship entity2).graph
          (strip entity2)), none, none⟩ ∧
    (strip entity1, strip relationship) ∈
      (neighborsOf (add_relationship g entity1 relationship entity2).graph
        (strip entity2)).incoming := by
  have hres : add_relationship g entity1 relationship entity2 =
      ⟨addEdge g (strip entity1) (strip entity2) (strip relationship), true, 200,
        "Relationship added: " ++ strip entity1 ++ " --[" ++ strip relationship ++ "]--> " ++
          strip entity2,
        some (get_graph_data_dict
          (addEdge g (strip entity1) (strip entity2) (strip relationship)))⟩ := by
    unfold add_relationship
    dsimp only
    rw [if_neg (by simp [h1, h2, h3])]
  rw [hres]
  dsimp only
  have hmem := mem_edges_addEdge g (strip entity1) (strip entity2) (strip relationship)
  have hn := nodes_addEdge g (strip entity1) (strip entity2) (strip relationship)
  refine ⟨rfl, rfl, ?_, ?_, ?_, ?_, ?_⟩
  · exact List.mem_map.mpr ⟨(strip entity1, strip entity2, strip relationship), hmem, rfl⟩
  · exact query_neighbors_of_mem _ entity1 h1 hn.1
  · exact List.mem_map.mpr
      ⟨(strip entity1, strip entity2, strip relationship),
        List.mem_filter.mpr ⟨hmem, by simp⟩, rfl⟩
  · exact query_neighbors_of_mem _ entity2 h3 hn.2
  · exact List.mem_map.mpr
      ⟨(strip entity1, strip entity2, strip relationship),
        List.mem_filter.mpr ⟨hmem, by simp⟩, rfl⟩

/-- Witness for `add_relationship_success_visible`: the spec's example
`add_relationship("A", "knows", "B")` on the seeded graph. -/
theorem add_relationship_success_visible_witness :
    strip "A" ≠ "" ∧ strip "knows" ≠ "" ∧ strip "B" ≠ "" ∧
    ((add_relationship initialGraph "A" "knows" "B").success = true ∧
     (add_relationship initialGraph "A" "knows" "B").graph_data =
       some (get_graph_data_dict (add_relationship initialGraph "A" "knows" "B").graph) ∧
     (⟨strip "A", strip "B", strip "knows", "to",
         strip "A" ++ " --[" ++ strip "knows" ++ "]--> " ++ strip "B"⟩ : VisEdge) ∈
       (get_graph_data_dict (add_relationship initialGraph "A" "knows" "B").graph).edges ∧
     query_graph (add_relationship initialGraph "A" "knows" "B").graph "A" "neighbors" =
       QueryResponse.ok (strip "A") "neighbors"
         ⟨some (neighborsOf (add_relationship initialGraph "A" "knows" "B").graph
           (strip "A")), none, none⟩ ∧
     (strip "B", strip "knows") ∈
       (neighborsOf (add_relationship initialGraph "A" "knows" "B").graph
         (strip "A")).outgoing ∧
     query_graph (add_relationship initialGraph "A" "knows" "B").graph "B" "neighbors" =
       QueryResponse.ok (strip "B") "neighbors"
         ⟨some (neighborsOf (add_relationship initialGraph "A" "knows" "B").graph
           (strip "B")), none, none⟩ ∧
     (strip "A", strip "knows") ∈
       (neighborsOf (add_relationship initialGraph "A" "knows" "B").graph
         (strip "B")).incoming) :=
  ⟨by decide, by decide, by decide,
   add_relationship_success_visible initialGraph "A" "knows" "B"
     (by decide) (by decide) (by decide)⟩

/-! ### Path soundness of the BFS behind the shortest-path query -/

lemma mem_successorsOf {g : KGraph} {cur s : String} (h : s ∈ successorsOf g cur) :
    hasEdge g cur s = true := by
  unfold successorsOf at h
  obtain ⟨e, he, rfl⟩ := List.mem_map.mp h
  have hf := List.mem_filter.mp he
  exact List.any_eq_true.mpr ⟨e, hf.1, by simp [hf.2]⟩

lemma chain_snoc (g : KGraph) (a : String) :
    ∀ l x, PathChain g l → l.getLast? = some x → hasEdge g x a = true →
      PathChain g (l ++ [a]) := by
  intro l
  induction l with
  | nil => intro x _ hlast _; simp at hlast
  | cons y l ih =>
    intro x hc hlast he
    cases l with
    | nil =>
      simp only [List.getLast?_singleton, Option.some.injEq] at hlast
      subst hlast
      exact ⟨he, trivial⟩
    | cons z rest =>
      rw [List.getLast?_cons_cons] at hlast
      have hc' : hasEdge g y z = true ∧ PathChain g (z :: rest) := hc
      exact ⟨hc'.1, ih x hc'.2 hlast he⟩

lemma revChain_reverse (g : KGraph) : ∀ l, RevChain g l → PathChain g l.reverse := by
  intro l
  induction l with
  | nil => intro _; trivial
  | cons a l ih =>
    intro h
    cases l with
    | nil => exact trivial
    | cons b rest =>
      have h' : hasEdge g b a = true ∧ RevChain g (b :: rest) := h
      have hrev := ih h'.2
      have hlast : (b :: rest).reverse.getLast? = some b := by
        rw [List.getLast?_reverse]
        rfl
      have hsnoc := chain_snoc g a ((b :: rest).reverse) b hrev hlast h'.1
      rw [List.reverse_cons]
      exact hsnoc

lemma bfsAux_sound (g : KGraph) (target source : String) :
    ∀ fuel (queue : List (List String)) (visited : List String) (p : List String),
      (∀ q ∈ queue, q.getLast? = some source ∧ RevChain g q) →
      bfsAux g target fuel queue visited = some p →
      p.head? = some source ∧ p.getLast? = some target ∧ PathChain g p := by
  intro fuel
  induction fuel with
  | zero =>
    intro queue visited p _ hres
    simp [bfsAux] at hres
  | succ n ih =>
    intro queue visited p hinv hres
    match queue with
    | [] => simp [bfsAux] at hres
    | q :: qs =>
      match q with
      | [] => simp [bfsAux] at hres
      | cur :: rest =>
        simp only [bfsAux] at hres
        by_cases hc : (cur == target) = true
        · rw [if_pos hc] at hres
          have hp : p = (cur :: rest).reverse := by
            injection hres with h
            exact h.symm
          subst hp
          have hq := hinv (cur :: rest) (List.mem_cons_self _ _)
          have hcur : cur = target := by simpa using hc
          refine ⟨?_, ?_, revChain_reverse g _ hq.2⟩
          · rw [List.head?_reverse]
            exact hq.1
          · rw [List.getLast?_reverse]
            simp [hcur]
        · rw [if_neg hc] at hres
          apply ih _ _ p _ hres
          intro q' hq'
          rcases List.mem_append.mp hq' with hmem | hmem
          · exact hinv q' (List.mem_cons_of_mem _ hmem)
          · obtain ⟨s, hs, rfl⟩ := List.mem_map.mp hmem
            have hsucc : s ∈ successorsOf g cur := (List.mem_filter.mp hs).1
            have hq := hinv (cur :: rest) (List.mem_cons_self _ _)
            refine ⟨?_, mem_successorsOf hsucc, hq.2⟩
            rw [List.getLast?_cons_cons]
            exact hq.1

lemma shortest_path_sound (g : KGraph) (s t : String) (p : List String)
    (h : shortest_path g s t = some p) :
    p.head? = some s ∧ p.getLast? = some t ∧ PathChain g p := by
  apply bfsAux_sound g t s _ [[s]] [s] p _ h
  intro q hq
  simp only [List.mem_singleton] at hq
  subst hq
  exact ⟨rfl, trivial⟩

/-- C4: for an entity present in the graph, the shortest-path query result
never lists the entity itself as a key, every returned path runs from the
entity to its key, and any node with no directed path from the entity is
simply omitted from the result. -/
theorem shortest_paths_wellformed (g : KGraph) (entity : String)
    (hmem : entity ∈ g.nodes) :
    (∀ p, (entity, p) ∉ shortestPathsFrom g entity) ∧
    (∀ t p, (t, p) ∈ shortestPathsFrom g entity →
      p.head? = some entity ∧ p.getLast? = some t) ∧
    (∀ t, ¬ ReachableIn g entity t → ∀ p, (t, p) ∉ shortestPathsFrom g entity) := by
  refine ⟨?_, ?_, ?_⟩
  · intro p hp
    obtain ⟨t', ht', hmap⟩ := List.mem_filterMap.mp hp
    obtain ⟨q, _, heq⟩ := Option.map_eq_some'.mp hmap
    injection heq with h1 h2
    subst h1
    have hpred := (List.mem_filter.mp ht').2
    simp at hpred
  · intro t p hp
    obtain ⟨t', ht', hmap⟩ := List.mem_filterMap.mp hp
    obtain ⟨q, hq, heq⟩ := Option.map_eq_some'.mp hmap
    injection heq with h1 h2
    rw [h1, h2] at hq
    have hs := shortest_path_sound g entity t p hq
    exact ⟨hs.1, hs.2.1⟩
  · intro t hnr p hp
    obtain ⟨t', ht', hmap⟩ := List.mem_filterMap.mp hp
    obtain ⟨q, hq, heq⟩ := Option.map_eq_some'.mp hmap
    injection heq with h1 h2
    rw [h1, h2] at hq
    have hs := shortest_path_sound g entity t p hq
    exact hnr ⟨p, hs.2.2, hs.1, hs.2.1⟩

/-- Witness for `shortest_paths_wellformed` at the seeded entity
"John Doe". -/
theorem shortest_paths_wellformed_witness :
    "John Doe" ∈ initialGraph.nodes ∧
    ((∀ p, ("John Doe", p) ∉ shortestPathsFrom initialGraph "John Doe") ∧
     (∀ t p, (t, p) ∈ shortestPathsFrom initialGraph "John Doe" →
       p.head? = some "John Doe" ∧ p.getLast? = some t) ∧
     (∀ t, ¬ ReachableIn initialGraph "John Doe" t →
       ∀ p, (t, p) ∉ shortestPathsFrom initialGraph "John Doe")) :=
  ⟨by decide, shortest_paths_wellformed initialGraph "John Doe" (by decide)⟩

/-! ### Degree centrality versus the distinct-neighbor fraction -/

lemma length_filter_or_disjoint (p q : String → Bool) :
    ∀ l : List String, (∀ x ∈ l, ¬(p x = true ∧ q x = true)) →
      (l.filter (fun x => p x || q x)).length =
        (l.filter p).length + (l.filter q).length := by
  intro l
  induction l with
  | nil => intro _; rfl
  | cons a l ih =>
    intro h
    have ha := h a (List.mem_cons_self _ _)
    have hrec := ih (fun x hx => h x (List.mem_cons_of_mem _ hx))
    by_cases hp : p a = true
    · have hq : q a = false := by
        cases hqv : q a
        · rfl
        · exact absurd ⟨hp, hqv⟩ ha
      simp [List.filter_cons, hp, hq, hrec]
      omega
    · have hp' : p a = false := by simpa using hp
      by_cases hq : q a = true
      · simp [List.filter_cons, hp', hq, hrec]
        omega
      · have hq' : q a = false := by simpa using hq
        simp [List.filter_cons, hp', hq', hrec]

lemma length_filter_ne (a : String) :
    ∀ l : List String, l.Nodup → a ∈ l →
      (l.filter (fun m => !(m == a))).length = l.length - 1 := by
  intro l
  induction l with
  | nil => intro _ h; simp at h
  | cons b l ih =>
    intro hnd hmem
    by_cases hb : b = a
    · subst hb
      have hnotin : b ∉ l := (List.nodup_cons.mp hnd).1
      have hfix : l.filter (fun m => !(m == b)) = l := by
        apply List.filter_eq_self.mpr
        intro x hx
        have : x ≠ b := fun hxa => hnotin (hxa ▸ hx)
        simp [this]
      simp [List.filter_cons, hfix]
    · have hmem' : a ∈ l := by
        rcases List.mem_cons.mp hmem with h | h
        · exact absurd h.symm hb
        · exact h
      have ih' := ih (List.nodup_cons.mp hnd).2 hmem'
      have hlpos : 0 < l.length := List.length_pos.mpr (List.ne_nil_of_mem hmem')
      simp [List.filter_cons, show (b == a) = false from by simp [hb], ih']
      omega

lemma length_filter_out (g : KGraph) (n : String)
    (hnodes : g.nodes.Nodup)
    (hpairs : (g.edges.map (fun e => (e.1, e.2.1))).Nodup)
    (hends : ∀ e ∈ g.edges, e.1 ∈ g.nodes ∧ e.2.1 ∈ g.nodes)
    (hself : hasEdge g n n = false) :
    ((othersOf g n).filter (fun m => hasEdge g n m)).length =
      (g.edges.filter (fun e => e.1 == n)).length := by
  have hnd1 : ((othersOf g n).filter (fun m => hasEdge g n m)).Nodup :=
    List.Nodup.filter _ (List.Nodup.filter _ hnodes)
  have hpairsOut : ((g.edges.filter (fun e => e.1 == n)).map (fun e => (e.1, e.2.1))).Nodup :=
    List.Nodup.sublist (List.Sublist.map _ (List.filter_sublist _)) hpairs
  have hfst : ∀ x ∈ (g.edges.filter (fun e => e.1 == n)).map (fun e => (e.1, e.2.1)),
      x.1 = n := by
    intro x hx
    obtain ⟨e, he, rfl⟩ := List.mem_map.mp hx
    simpa using (List.mem_filter.mp he).2
  have hnd2 : ((g.edges.filter (fun e => e.1 == n)).map (fun e => e.2.1)).Nodup := by
    have hmm : (g.edges.filter (fun e => e.1 == n)).map (fun e => e.2.1) =
        ((g.edges.filter (fun e => e.1 == n)).map (fun e => (e.1, e.2.1))).map Prod.snd := by
      rw [List.map_map]
      rfl
    rw [hmm]
    apply (List.nodup_map_iff_inj_on hpairsOut).mpr
    intro x hx y hy hxy
    have hx1 := hfst x hx
    have hy1 := hfst y hy
    cases x
    cases y
    simp only at hx1 hy1 hxy
    rw [hx1, hy1, hxy]
  have hmemiff : ∀ m, m ∈ (othersOf g n).filter (fun m => hasEdge g n m) ↔
      m ∈ (g.edges.filter (fun e => e.1 == n)).map (fun e => e.2.1) := by
    intro m
    constructor
    · intro hm
      have h1 := List.mem_filter.mp hm
      obtain ⟨e, he, hpe⟩ := List.any_eq_true.mp h1.2
      have hpe' : e.1 = n ∧ e.2.1 = m := by simpa using hpe
      exact List.mem_map.mpr ⟨e, List.mem_filter.mpr ⟨he, by simp [hpe'.1]⟩, hpe'.2⟩
    · intro hm
      obtain ⟨e, he, rfl⟩ := List.mem_map.mp hm
      have h1 := List.mem_filter.mp he
      have he1 : e.1 = n := by simpa using h1.2
      have hedge : hasEdge g n e.2.1 = true :=
        List.any_eq_true.mpr ⟨e, h1.1, by simp [he1]⟩
      have hne : e.2.1 ≠ n := by
        intro heq
        rw [heq] at hedge
        simp [hedge] at hself
      refine List.mem_filter.mpr ⟨List.mem_filter.mpr ⟨(hends e h1.1).2, ?_⟩, hedge⟩
      simp [hne]
  have hperm := (List.perm_ext_iff_of_nodup hnd1 hnd2).mpr hmemiff
  rw [hperm.length_eq, List.length_map]

lemma length_filter_in (g : KGraph) (n : String)
    (hnodes : g.nodes.Nodup)
    (hpairs : (g.edges.map (fun e => (e.1, e.2.1))).Nodup)
    (hends : ∀ e ∈ g.edges, e.1 ∈ g.nodes ∧ e.2.1 ∈ g.nodes)
    (hself : hasEdge g n n = false) :
    ((othersOf g n).filter (fun m => hasEdge g m n)).length =
      (g.edges.filter (fun e => e.2.1 == n)).length := by
  have hnd1 : ((othersOf g n).filter (fun m => hasEdge g m n)).Nodup :=
    List.Nodup.filter _ (List.Nodup.filter _ hnodes)
  have hpairsIn : ((g.edges.filter (fun e => e.2.1 == n)).map (fun e => (e.1, e.2.1))).Nodup :=
    List.Nodup.sublist (List.Sublist.map _ (List.filter_sublist _)) hpairs
  have hsnd : ∀ x ∈ (g.edges.filter (fun e => e.2.1 == n)).map (fun e => (e.1, e.2.1)),
      x.2 = n := by
    intro x hx
    obtain ⟨e, he, rfl⟩ := List.mem_map.mp hx
    simpa using (List.mem_filter.mp he).2
  have hnd2 : ((g.edges.filter (fun e => e.2.1 == n)).map (fun e => e.1)).Nodup := by
    have hmm : (g.edges.filter (fun e => e.2.1 == n)).map (fun e => e.1) =
        ((g.edges.filter (fun e => e.2.1 == n)).map (fun e => (e.1, e.2.1))).map Prod.fst := by
      rw [List.map_map]
      rfl
    rw [hmm]
    apply (List.nodup_map_iff_inj_on hpairsIn).mpr
    intro x hx y hy hxy
    have hx1 := hsnd x hx
    have hy1 := hsnd y hy
    cases x
    cases y
    simp only at hx1 hy1 hxy
    rw [hx1, hy1, hxy]
  have hmemiff : ∀ m, m ∈ (othersOf g n).filter (fun m => hasEdge g m n) ↔
      m ∈ (g.edges.filter (fun e => e.2.1 == n)).map (fun e => e.1) := by
    intro m
    constructor
    · intro hm
      have h1 := List.mem_filter.mp hm
      obtain ⟨e, he, hpe⟩ := List.any_eq_true.mp h1.2
      have hpe' : e.1 = m ∧ e.2.1 = n := by simpa using hpe
      exact List.mem_map.mpr ⟨e, List.mem_filter.mpr ⟨he, by simp [hpe'.2]⟩, hpe'.1⟩
    · intro hm
      obtain ⟨e, he, rfl⟩ := List.mem_map.mp hm
      have h1 := List.mem_filter.mp he
      have he2 : e.2.1 = n := by simpa using h1.2
      have hedge : hasEdge g e.1 n = true :=
        List.any_eq_true.mpr ⟨e, h1.1, by simp [he2]⟩
      have hne : e.1 ≠ n := by
        intro heq
        rw [heq] at hedge
        simp [hedge] at hself
      refine List.mem_filter.mpr ⟨List.mem_filter.mpr ⟨(hends e h1.1).1, ?_⟩, hedge⟩
      simp [hne]
  have hperm := (List.perm_ext_iff_of_nodup hnd1 hnd2).mpr hmemiff
  rw [hperm.length_eq, List.length_map]

/-- C9 counterexample: on the reachable state `reciprocalGraph` (seeded graph
plus an edge back from "Computer Science" to "John Doe"), the degree value
the code returns for "John Doe" is `4/8 = 1/2`, while the fraction of
distinct directly connected other entities is `3/8`: the reciprocally
connected neighbor "Computer Science" is counted twice. -/
theorem degree_centrality_counterexample :
    "John Doe" ∈ reciprocalGraph.nodes ∧
    degree_centrality reciprocalGraph "John Doe" = 1 / 2 ∧
    distinctNeighborFraction reciprocalGraph "John Doe" = 3 / 8 ∧
    degree_centrality reciprocalGraph "John Doe" ≠
      distinctNeighborFraction reciprocalGraph "John Doe" := by
  have h1 : degreeOf reciprocalGraph "John Doe" = 4 := by decide
  have h2 : reciprocalGraph.nodes.length = 9 := by decide
  have h3 : (connectedOthers reciprocalGraph "John Doe").length = 3 := by decide
  have h4 : (othersOf reciprocalGraph "John Doe").length = 8 := by decide
  have hd : degree_centrality reciprocalGraph "John Doe" = 1 / 2 := by
    unfold degree_centrality
    rw [h1, h2]
    norm_num
  have hf : distinctNeighborFraction reciprocalGraph "John Doe" = 3 / 8 := by
    unfold distinctNeighborFraction
    rw [h3, h4]
    norm_num
  refine ⟨by decide, hd, hf, ?_⟩
  rw [hd, hf]
  norm_num

/-- C9 (amended): the degree value returned by the centrality query is
`(out-degree + in-degree) / (number of other entities)`; whenever the queried
entity has no self-loop and no neighbor connected in both directions (and the
graph satisfies the store invariants: distinct nodes, one edge per ordered
pair, edge endpoints registered as nodes), this equals the spec's fraction of
distinct directly connected other entities — but reciprocally connected
neighbors are counted twice in general. -/
theorem degree_centrality_eq_distinct_fraction (g : KGraph) (n : String)
    (hnodes : g.nodes.Nodup)
    (hpairs : (g.edges.map (fun e => (e.1, e.2.1))).Nodup)
    (hends : ∀ e ∈ g.edges, e.1 ∈ g.nodes ∧ e.2.1 ∈ g.nodes)
    (hmem : n ∈ g.nodes)
    (hlen : 2 ≤ g.nodes.length)
    (hself : hasEdge g n n = false)
    (hrecip : ∀ m ∈ g.nodes,
      ¬(hasEdge g n m = true ∧ hasEdge g m n = true)) :
    degree_centrality g n = distinctNeighborFraction g n := by
  have hothers : (othersOf g n).length = g.nodes.length - 1 :=
    length_filter_ne n g.nodes hnodes hmem
  have hdisj : ∀ x ∈ othersOf g n,
      ¬(hasEdge g n x = true ∧ hasEdge g x n = true) := by
    intro x hx
    exact hrecip x (List.mem_filter.mp hx).1
  have hsplit := length_filter_or_disjoint (fun m => hasEdge g n m)
    (fun m => hasEdge g m n) (othersOf g n) hdisj
  have hout := length_filter_out g n hnodes hpairs hends hself
  have hin := length_filter_in g n hnodes hpairs hends hself
  have hconn : (connectedOthers g n).length = degreeOf g n := by
    unfold connectedOthers degreeOf
    rw [hsplit, hout, hin]
  have hlen1 : ¬(g.nodes.length ≤ 1) := by omega
  have hopos : ¬((othersOf g n).length = 0) := by omega
  unfold degree_centrality distinctNeighborFraction
  rw [if_neg hlen1, if_neg hopos, hconn, hothers]
  rw [Nat.cast_sub (by omega)]
  norm_num

/-- Witness for `degree_centrality_eq_distinct_fraction` at the seeded graph
and "John Doe". -/
theorem degree_centrality_eq_distinct_fraction_witness :
    initialGraph.nodes.Nodup ∧
    (initialGraph.edges.map (fun e => (e.1, e.2.1))).Nodup ∧
    (∀ e ∈ initialGraph.edges, e.1 ∈ initialGraph.nodes ∧ e.2.1 ∈ initialGraph.nodes) ∧
    "John Doe" ∈ initialGraph.nodes ∧
    2 ≤ initialGraph.nodes.length ∧
    hasEdge initialGraph "John Doe" "John Doe" = false ∧
    (∀ m ∈ initialGraph.nodes,
      ¬(hasEdge initialGraph "John Doe" m = true ∧
        hasEdge initialGraph m "John Doe" = true)) ∧
    degree_centrality initialGraph "John Doe" =
      distinctNeighborFraction initialGraph "John Doe" :=
  ⟨by decide, by decide, by decide, by decide, by decide, by decide, by decide,
   degree_centrality_eq_distinct_fraction initialGraph "John Doe" (by decide) (by decide)
     (by decide) (by decide) (by decide) (by decide) (by decide)⟩
